import Mathlib

/-!
Verification development for the telda blf4 engine and assembler encoder.

The execution engine handlers (src/blf4/isa/handlers.rs) and the assembler
encoder (src/source/mod.rs, write_data_operand) are embedded shallowly.
Machine integers are Nat (with explicit reductions modulo 2 ^ 8, 2 ^ 16,
2 ^ 24) and Int for the signed views.  A Rust arithmetic-overflow program
error (checked add, shift by at least the bit width) is modelled as a
distinguished crash outcome, distinct from the guest-visible traps.

Parts of the repository that handlers.rs calls but whose source is not
available (the cpu module with the register file, the memory ports, the
stack helpers, the trap frame, the nibble type U4 and the isa opcode
constants) are modelled from the specification; each such definition
carries a doc comment starting with the words Modelled from the spec.
-/

/-- Trap kinds of the engine (spec section 4.4): Invalid, Halt, SysCall,
ZeroDiv, IllegalOperation, IllegalHandlerReturn, PageFault, and a
memory-level fault for out-of-range physical addresses. -/
inductive TrapMode where
  | Invalid
  | Halt
  | SysCall
  | ZeroDiv
  | IllegalOperation
  | IllegalHandlerReturn
  | PageFault
  | MemFault
deriving DecidableEq, Repr

/-- The four arithmetic flags and the three mode bits (spec section 3). -/
structure Flags where
  zero : Bool
  sign : Bool
  carry : Bool
  overflow : Bool
  trap : Bool
  user_mode : Bool
  virtual_mode : Bool
deriving DecidableEq, Repr

/-- Modelled from the spec: the 4-bit nibble type U4 of the repository,
represented as Fin 16. -/
abbrev U4 := Fin 16

/-- A byte register selector (wraps a nibble), as in the cpu module. -/
structure ByteRegister where
  r : U4
deriving DecidableEq, Repr

/-- A wide register selector (wraps a nibble), as in the cpu module. -/
structure WideRegister where
  r : U4
deriving DecidableEq, Repr

/-- The wide zero-register selector. -/
def R0 : WideRegister := ⟨0⟩

/-- The wide register selector 1. -/
def R1 : WideRegister := ⟨1⟩

/-- Modelled from the spec: the CPU state: register file, program counter,
link register, stack pointer and the flag word (spec section 3).  The
byte-register to wide-register aliasing mapping is implementation-defined
in the spec and is abstracted here as an independent byte file; no claim
under proof mixes the two views of one register. -/
structure Cpu where
  wregs : U4 → Nat
  bregs : U4 → Nat
  program_counter : Nat
  link : Nat
  stack : Nat
  flags : Flags

/-- Modelled from the spec: the shared mutable handler context: CPU state,
the remaining operand byte stream at the program counter, effective-address
memory and 24-bit physical memory. -/
structure Ctx where
  cpu : Cpu
  stream : List Nat
  mem : Nat → Nat
  pmem : Nat → Nat

/-- Outcome of running a handler fragment: a normal result with the updated
context, a guest-visible trap with the context as mutated so far, or a host
crash (a Rust arithmetic-overflow program error). -/
inductive Res (α : Type) where
  | ok : α → Ctx → Res α
  | trap : TrapMode → Ctx → Res α
  | crash : Res α

/-- The handler monad: state passing over Ctx with trap and crash exits. -/
def M (α : Type) : Type := Ctx → Res α

def M.pure {α : Type} (a : α) : M α := fun c => Res.ok a c

def M.bind {α β : Type} (m : M α) (f : α → M β) : M β := fun c =>
  match m c with
  | Res.ok a c2 => f a c2
  | Res.trap t c2 => Res.trap t c2
  | Res.crash => Res.crash

instance : Monad M where
  pure := M.pure
  bind := M.bind

def throwT {α : Type} (t : TrapMode) : M α := fun c => Res.trap t c

def crashM {α : Type} : M α := fun _ => Res.crash

def getCtx : M Ctx := fun c => Res.ok c c

def setCtx (c2 : Ctx) : M Unit := fun _ => Res.ok () c2

def modifyCpu (f : Cpu → Cpu) : M Unit := fun c => Res.ok () { c with cpu := f c.cpu }

/-- Advance the program counter by one (16-bit wrap). -/
def Cpu.bump (cpu : Cpu) : Cpu :=
  { cpu with program_counter := (cpu.program_counter + 1) % 65536 }

/-- Modelled from the spec: instruction fetch reads the next operand byte
and advances the program counter; running past the end of the stream is a
memory-level fault (spec section 9: fetch is bounds-checked, a stray
program counter is a trap, not a panic). -/
def fetch : M Nat := fun c =>
  match c.stream with
  | [] => Res.trap TrapMode.MemFault c
  | b :: rest => Res.ok b { c with cpu := c.cpu.bump, stream := rest }

/-- Modelled from the spec: U4 pairing packs two 4-bit fields into one
byte, high nibble first (spec section 4.1). -/
def U4.pair (a b : U4) : Nat := 16 * a.val + b.val

/-- Modelled from the spec: U4 unpairing splits a byte into its high and
low nibble (spec section 4.1). -/
def U4.paired (n : Nat) : U4 × U4 :=
  (⟨n / 16 % 16, Nat.mod_lt _ (by omega)⟩, ⟨n % 16, Nat.mod_lt _ (by omega)⟩)

/-- Shared decoder arg_pair from handlers.rs: fetch one operand byte and
hand the two nibbles to the two converters. -/
def arg_pair {α β : Type} (f1 : U4 → α) (f2 : U4 → β) : M (α × β) := do
  let operand ← fetch
  let p := U4.paired operand
  pure (f1 p.1, f2 p.2)

/-- Shared decoder arg_imm_byte from handlers.rs. -/
def arg_imm_byte : M Nat := fetch

/-- Shared decoder arg_imm_wide from handlers.rs: two bytes, little
endian. -/
def arg_imm_wide : M Nat := do
  let l ← fetch
  let h ← fetch
  pure (l + 256 * h)

/-- Modelled from the spec: reading a byte register; selector 0 is the
hard-wired zero register and reads as 0 (spec section 3). -/
def Cpu.read_br (cpu : Cpu) (r : ByteRegister) : Nat :=
  if r.r = 0 then 0 else cpu.bregs r.r

/-- Modelled from the spec: writing a byte register; a write to selector 0
succeeds and is discarded (spec section 3). -/
def Cpu.write_br (cpu : Cpu) (r : ByteRegister) (v : Nat) : Cpu :=
  if r.r = 0 then cpu
  else { cpu with bregs := fun i => if i = r.r then v else cpu.bregs i }

/-- Modelled from the spec: reading a wide register; selector 0 reads as 0.
In handlers.rs this returns a Result; the spec gives no trap condition for
reads, so the model makes it total. -/
def Cpu.read_wr (cpu : Cpu) (r : WideRegister) : Nat :=
  if r.r = 0 then 0 else cpu.wregs r.r

/-- Modelled from the spec: writing a wide register; following the primary
policy of spec sections 3 and 8, a write to the wide zero register succeeds
and is silently discarded. -/
def Cpu.write_wr (cpu : Cpu) (r : WideRegister) (v : Nat) : Cpu :=
  if r.r = 0 then cpu
  else { cpu with wregs := fun i => if i = r.r then v else cpu.wregs i }

/-- Pointwise function update used for the memory maps. -/
def updf (f : Nat → Nat) (k v : Nat) : Nat → Nat := fun i => if i = k then v else f i

/-- Modelled from the spec: the effective-address byte write port.  The
virtual-mode page walker is not elaborated by any available source (spec
section 9), and no claim under proof runs in virtual mode, so the port is
modelled as a direct byte store at the 16-bit effective address. -/
def memWrite (addr v : Nat) : M Unit := fun c =>
  Res.ok () { c with mem := updf c.mem addr v }

/-- Modelled from the spec: the effective-address byte read port. -/
def memRead (addr : Nat) : M Nat := fun c => Res.ok (c.mem addr) c

/-- Modelled from the spec: a wide access is two consecutive byte accesses
at addr and addr + 1, little endian (spec section 4.2). -/
def write_wide (addr v : Nat) : M Unit := do
  memWrite addr (v % 256)
  memWrite ((addr + 1) % 65536) (v / 256 % 256)

/-- Modelled from the spec: wide read, two consecutive bytes, little
endian. -/
def read_wide (addr : Nat) : M Nat := do
  let l ← memRead addr
  let h ← memRead ((addr + 1) % 65536)
  pure (l + 256 * h)

/-- Modelled from the spec: the supervisor physical write port; an
out-of-range 24-bit address is a memory-level fault (spec section 4.4). -/
def physical_write (addr v : Nat) : M Unit := fun c =>
  if addr < 16777216 then Res.ok () { c with pmem := updf c.pmem addr v }
  else Res.trap TrapMode.MemFault c

/-- Modelled from the spec: the supervisor physical read port. -/
def physical_read (addr : Nat) : M Nat := fun c =>
  if addr < 16777216 then Res.ok (c.pmem addr) c
  else Res.trap TrapMode.MemFault c

/-- Modelled from the spec: POP of a wide value reads at the stack pointer
then increments it by the operand width (spec section 3). -/
def popw : M Nat := do
  let c ← getCtx
  let v ← read_wide c.cpu.stack
  modifyCpu (fun cpu => { cpu with stack := (cpu.stack + 2) % 65536 })
  pure v

/-- Modelled from the spec: decoding the saved flag word, one bit per flag.
The exact bit layout is implementation-defined and fixed here. -/
def wordToFlags (w : Nat) : Flags :=
  ⟨decide (w % 2 = 1), decide (w / 2 % 2 = 1), decide (w / 4 % 2 = 1),
   decide (w / 8 % 2 = 1), decide (w / 16 % 2 = 1), decide (w / 32 % 2 = 1),
   decide (w / 64 % 2 = 1)⟩

/-- The fifteen wide general-purpose selectors restored by the trap-frame
pop. -/
def gprList : List WideRegister :=
  [⟨1⟩, ⟨2⟩, ⟨3⟩, ⟨4⟩, ⟨5⟩, ⟨6⟩, ⟨7⟩, ⟨8⟩, ⟨9⟩, ⟨10⟩, ⟨11⟩, ⟨12⟩, ⟨13⟩, ⟨14⟩, ⟨15⟩]

/-- Pop a list of wide registers from the stack, in order. -/
def popRegsAux : List WideRegister → M Unit
  | [] => pure ()
  | r :: rs => do
    let v ← popw
    modifyCpu (fun cpu => cpu.write_wr r v)
    popRegsAux rs

/-- Modelled from the spec: pop_registers restores the register set saved
at trap entry: all wide general-purpose registers, the flag word, the
program counter at the fault and the link register (spec section 4.4,
step 3 reversed).  The exact frame order is implementation-defined and is
fixed here. -/
def pop_registers : M Unit := do
  popRegsAux gprList
  let fw ← popw
  let p ← popw
  let l ← popw
  modifyCpu (fun cpu =>
    { cpu with flags := wordToFlags fw, program_counter := p % 65536, link := l % 65536 })

/-- Handler reth from handlers.rs: outside a trap handler it raises
IllegalHandlerReturn; otherwise it pops the saved registers and clears the
trap flag. -/
def reth : M Unit := do
  let c ← getCtx
  if c.cpu.flags.trap = false then throwT TrapMode.IllegalHandlerReturn
  else do
    pop_registers
    modifyCpu (fun cpu => { cpu with flags := { cpu.flags with trap := false } })

/-- Handler usr from handlers.rs. -/
def usr : M Unit := do
  let c ← getCtx
  if c.cpu.flags.user_mode then throwT TrapMode.IllegalOperation
  else modifyCpu (fun cpu => { cpu with flags := { cpu.flags with user_mode := true } })

/-- Handler vmon from handlers.rs. -/
def vmon : M Unit := do
  let c ← getCtx
  if c.cpu.flags.user_mode then throwT TrapMode.IllegalOperation
  else modifyCpu (fun cpu => { cpu with flags := { cpu.flags with virtual_mode := true } })

/-- Handler vmoff from handlers.rs. -/
def vmoff : M Unit := do
  let c ← getCtx
  if c.cpu.flags.user_mode then throwT TrapMode.IllegalOperation
  else modifyCpu (fun cpu => { cpu with flags := { cpu.flags with virtual_mode := false } })

/-- Handler pstore from handlers.rs: privileged physical store. -/
def pstore : M Unit := do
  let c ← getCtx
  if c.cpu.flags.user_mode then throwT TrapMode.IllegalOperation
  else do
    let (br1, wr) ← arg_pair ByteRegister.mk WideRegister.mk
    let (br2, z) ← arg_pair ByteRegister.mk Fin.val
    if z ≠ 0 then throwT TrapMode.Invalid
    else do
      let c2 ← getCtx
      let high_byte := c2.cpu.read_br br1
      let low_wide := c2.cpu.read_wr wr
      let addr := Nat.lor low_wide (Nat.shiftLeft high_byte 16)
      physical_write addr (c2.cpu.read_br br2)

/-- Handler pload from handlers.rs: privileged physical load. -/
def pload : M Unit := do
  let c ← getCtx
  if c.cpu.flags.user_mode then throwT TrapMode.IllegalOperation
  else do
    let (br1, br2) ← arg_pair ByteRegister.mk ByteRegister.mk
    let (wr, z) ← arg_pair WideRegister.mk Fin.val
    if z ≠ 0 then throwT TrapMode.Invalid
    else do
      let c2 ← getCtx
      let high_byte := c2.cpu.read_br br2
      let low_wide := c2.cpu.read_wr wr
      let addr := Nat.lor low_wide (Nat.shiftLeft high_byte 16)
      let val ← physical_read addr
      modifyCpu (fun cpu => cpu.write_br br1 val)

/-- Reinterpret a u8 bit pattern as a signed i8 value. -/
def toI8 (n : Nat) : Int := ((n : Int) + 128) % 256 - 128

/-- Two-complement wrap of an Int into the i8 range. -/
def wrapI8 (z : Int) : Int := (z + 128) % 256 - 128

/-- Reinterpret an i8 value as its u8 bit pattern. -/
def toU8 (z : Int) : Nat := (z % 256).toNat

/-- Reinterpret a u16 bit pattern as a signed i16 value. -/
def toI16 (n : Nat) : Int := ((n : Int) + 32768) % 65536 - 32768

/-- Two-complement wrap of an Int into the i16 range. -/
def wrapI16 (z : Int) : Int := (z + 32768) % 65536 - 32768

/-- Reinterpret an i16 value as its u16 bit pattern. -/
def toU16 (z : Int) : Nat := (z % 65536).toNat

/-- Rust overflowing_add on u8: wrapped sum plus unsigned-overflow bit. -/
def u8_overflowing_add (a b : Nat) : Option (Nat × Bool) :=
  some ((a + b) % 256, decide (256 ≤ a + b))

/-- Rust overflowing_add on i8: wrapped sum plus signed-overflow bit. -/
def i8_overflowing_add (a b : Int) : Option (Int × Bool) :=
  some (wrapI8 (a + b), decide (a + b < -128 ∨ 127 < a + b))

/-- Rust overflowing_sub on u8: wrapped difference plus borrow bit. -/
def u8_overflowing_sub (a b : Nat) : Option (Nat × Bool) :=
  some ((a + 256 - b % 256) % 256, decide (a < b))

/-- Rust overflowing_sub on i8. -/
def i8_overflowing_sub (a b : Int) : Option (Int × Bool) :=
  some (wrapI8 (a - b), decide (a - b < -128 ∨ 127 < a - b))

/-- The u8 AND closure of and_b: no carry. -/
def u8_and (a b : Nat) : Option (Nat × Bool) := some (Nat.land a b, false)

/-- The i8 AND closure of and_b, computed on bit patterns. -/
def i8_and (a b : Int) : Option (Int × Bool) :=
  some (toI8 (Nat.land (toU8 a) (toU8 b)), false)

/-- The u8 OR closure of or_b. -/
def u8_or (a b : Nat) : Option (Nat × Bool) := some (Nat.lor a b, false)

/-- The i8 OR closure of or_b. -/
def i8_or (a b : Int) : Option (Int × Bool) :=
  some (toI8 (Nat.lor (toU8 a) (toU8 b)), false)

/-- The u8 XOR closure of xor_b. -/
def u8_xor (a b : Nat) : Option (Nat × Bool) := some (Nat.xor a b, false)

/-- The i8 XOR closure of xor_b. -/
def i8_xor (a b : Int) : Option (Int × Bool) :=
  some (toI8 (Nat.xor (toU8 a) (toU8 b)), false)

/-- The u8 shift-left closure of shl_b.  A shift by 8 or more is a Rust
arithmetic-overflow program error, modelled as none. -/
def u8_shl (a b : Nat) : Option (Nat × Bool) :=
  if b < 8 then some (a * 2 ^ b % 256, false) else none

/-- The i8 shift-left closure of shl_b; an out-of-range shift amount is a
program error. -/
def i8_shl (a b : Int) : Option (Int × Bool) :=
  if 0 ≤ b ∧ b < 8 then some (toI8 (toU8 a * 2 ^ b.toNat % 256), false) else none

/-- The u8 closure of asr_b: arithmetic shift right via i8, then back. -/
def u8_asr (a b : Nat) : Option (Nat × Bool) :=
  if b < 8 then some (toU8 (Int.fdiv (toI8 a) (2 ^ b)), false) else none

/-- The i8 closure of asr_b. -/
def i8_asr (a b : Int) : Option (Int × Bool) :=
  if 0 ≤ b ∧ b < 8 then some (Int.fdiv a (2 ^ b.toNat), false) else none

/-- The u8 closure of lsr_b: logical shift right. -/
def u8_lsr (a b : Nat) : Option (Nat × Bool) :=
  if b < 8 then some (a / 2 ^ b, false) else none

/-- The i8 closure of lsr_b: logical shift right on the bit pattern. -/
def i8_lsr (a b : Int) : Option (Int × Bool) :=
  if 0 ≤ b ∧ b < 8 then some (toI8 (toU8 a / 2 ^ b.toNat), false) else none

/-- Wide (u16) counterparts of the byte closures. -/
def u16_overflowing_add (a b : Nat) : Option (Nat × Bool) :=
  some ((a + b) % 65536, decide (65536 ≤ a + b))

def i16_overflowing_add (a b : Int) : Option (Int × Bool) :=
  some (wrapI16 (a + b), decide (a + b < -32768 ∨ 32767 < a + b))

def u16_overflowing_sub (a b : Nat) : Option (Nat × Bool) :=
  some ((a + 65536 - b % 65536) % 65536, decide (a < b))

def i16_overflowing_sub (a b : Int) : Option (Int × Bool) :=
  some (wrapI16 (a - b), decide (a - b < -32768 ∨ 32767 < a - b))

def u16_and (a b : Nat) : Option (Nat × Bool) := some (Nat.land a b, false)

def i16_and (a b : Int) : Option (Int × Bool) :=
  some (toI16 (Nat.land (toU16 a) (toU16 b)), false)

def u16_or (a b : Nat) : Option (Nat × Bool) := some (Nat.lor a b, false)

def i16_or (a b : Int) : Option (Int × Bool) :=
  some (toI16 (Nat.lor (toU16 a) (toU16 b)), false)

def u16_xor (a b : Nat) : Option (Nat × Bool) := some (Nat.xor a b, false)

def i16_xor (a b : Int) : Option (Int × Bool) :=
  some (toI16 (Nat.xor (toU16 a) (toU16 b)), false)

def u16_shl (a b : Nat) : Option (Nat × Bool) :=
  if b < 16 then some (a * 2 ^ b % 65536, false) else none

def i16_shl (a b : Int) : Option (Int × Bool) :=
  if 0 ≤ b ∧ b < 16 then some (toI16 (toU16 a * 2 ^ b.toNat % 65536), false) else none

def u16_asr (a b : Nat) : Option (Nat × Bool) :=
  if b < 16 then some (toU16 (Int.fdiv (toI16 a) (2 ^ b)), false) else none

def i16_asr (a b : Int) : Option (Int × Bool) :=
  if 0 ≤ b ∧ b < 16 then some (Int.fdiv a (2 ^ b.toNat), false) else none

def u16_lsr (a b : Nat) : Option (Nat × Bool) :=
  if b < 16 then some (a / 2 ^ b, false) else none

def i16_lsr (a b : Int) : Option (Int × Bool) :=
  if 0 ≤ b ∧ b < 16 then some (toI16 (toU16 a / 2 ^ b.toNat), false) else none

/-- Shared byte binop skeleton binop_b from handlers.rs: decode three byte
registers (third operand byte has a zero low nibble), read the two sources,
apply the unsigned and the signed closure, set the four flags, write the
destination.  A crash inside a closure is a host crash. -/
def binop_b (f : Nat → Nat → Option (Nat × Bool)) (g : Int → Int → Option (Int × Bool)) :
    M Unit := do
  let (r1, r2) ← arg_pair ByteRegister.mk ByteRegister.mk
  let (r3, r4) ← arg_pair ByteRegister.mk Fin.val
  let c ← getCtx
  let v2 := c.cpu.read_br r2
  let v3 := c.cpu.read_br r3
  if r4 ≠ 0 then throwT TrapMode.Invalid
  else
    match f v2 v3, g (toI8 v2) (toI8 v3) with
    | some (res, carry), some (ires, overflowing) =>
      let flags2 : Flags :=
        { c.cpu.flags with
          carry := carry, overflow := overflowing,
          sign := decide (ires < 0), zero := decide (res = 0) }
      setCtx { c with cpu := Cpu.write_br { c.cpu with flags := flags2 } r1 res }
    | _, _ => crashM

/-- Shared wide binop skeleton binop_w from handlers.rs. -/
def binop_w (f : Nat → Nat → Option (Nat × Bool)) (g : Int → Int → Option (Int × Bool)) :
    M Unit := do
  let (r1, r2) ← arg_pair WideRegister.mk WideRegister.mk
  let (r3, r4) ← arg_pair WideRegister.mk Fin.val
  let c ← getCtx
  let v2 := c.cpu.read_wr r2
  let v3 := c.cpu.read_wr r3
  if r4 ≠ 0 then throwT TrapMode.Invalid
  else
    match f v2 v3, g (toI16 v2) (toI16 v3) with
    | some (res, carry), some (ires, overflowing) =>
      let flags2 : Flags :=
        { c.cpu.flags with
          carry := carry, overflow := overflowing,
          sign := decide (ires < 0), zero := decide (res = 0) }
      setCtx { c with cpu := Cpu.write_wr { c.cpu with flags := flags2 } r1 res }
    | _, _ => crashM

def add_b : M Unit := binop_b u8_overflowing_add i8_overflowing_add

def add_w : M Unit := binop_w u16_overflowing_add i16_overflowing_add

def sub_b : M Unit := binop_b u8_overflowing_sub i8_overflowing_sub

def sub_w : M Unit := binop_w u16_overflowing_sub i16_overflowing_sub

def and_b : M Unit := binop_b u8_and i8_and

def and_w : M Unit := binop_w u16_and i16_and

def or_b : M Unit := binop_b u8_or i8_or

def or_w : M Unit := binop_w u16_or i16_or

def xor_b : M Unit := binop_b u8_xor i8_xor

def xor_w : M Unit := binop_w u16_xor i16_xor

def shl_b : M Unit := binop_b u8_shl i8_shl

def shl_w : M Unit := binop_w u16_shl i16_shl

def asr_b : M Unit := binop_b u8_asr i8_asr

def asr_w : M Unit := binop_w u16_asr i16_asr

def lsr_b : M Unit := binop_b u8_lsr i8_lsr

def lsr_w : M Unit := binop_w u16_lsr i16_lsr

/-- Handler div_b from handlers.rs: four byte registers; a zero divisor
raises ZeroDiv before any destination is written. -/
def div_b : M Unit := do
  let (r1, r2) ← arg_pair ByteRegister.mk ByteRegister.mk
  let (r3, r4) ← arg_pair ByteRegister.mk ByteRegister.mk
  let c ← getCtx
  let n1 := c.cpu.read_br r3
  let n2 := c.cpu.read_br r4
  if n2 = 0 then throwT TrapMode.ZeroDiv
  else do
    modifyCpu (fun cpu => cpu.write_br r1 (n1 / n2))
    modifyCpu (fun cpu => cpu.write_br r2 (n1 % n2))

/-- Handler div_w from handlers.rs. -/
def div_w : M Unit := do
  let (r1, r2) ← arg_pair WideRegister.mk WideRegister.mk
  let (r3, r4) ← arg_pair WideRegister.mk WideRegister.mk
  let c ← getCtx
  let n1 := c.cpu.read_wr r3
  let n2 := c.cpu.read_wr r4
  if n2 = 0 then throwT TrapMode.ZeroDiv
  else do
    modifyCpu (fun cpu => cpu.write_wr r1 (n1 / n2))
    modifyCpu (fun cpu => cpu.write_wr r2 (n1 % n2))

/-- Shared conditional-jump tail jif from handlers.rs: fetch a 16-bit
absolute target and load it into the program counter exactly when the
condition holds. -/
def jif (cond : Bool) : M Unit := do
  let location ← arg_imm_wide
  if cond then modifyCpu (fun cpu => { cpu with program_counter := location })
  else pure ()

def jez : M Unit := do
  let c ← getCtx
  jif c.cpu.flags.zero

def jlt : M Unit := do
  let c ← getCtx
  jif (c.cpu.flags.sign != c.cpu.flags.overflow)

def jle : M Unit := do
  let c ← getCtx
  jif ((c.cpu.flags.sign != c.cpu.flags.overflow) && c.cpu.flags.zero)

def jgt : M Unit := do
  let c ← getCtx
  jif ((c.cpu.flags.sign == c.cpu.flags.overflow) && !c.cpu.flags.zero)

def jge : M Unit := do
  let c ← getCtx
  jif (c.cpu.flags.sign == c.cpu.flags.overflow)

def jnz : M Unit := do
  let c ← getCtx
  jif (!c.cpu.flags.zero)

def jo : M Unit := do
  let c ← getCtx
  jif c.cpu.flags.overflow

def jno : M Unit := do
  let c ← getCtx
  jif (!c.cpu.flags.overflow)

def ja : M Unit := do
  let c ← getCtx
  jif (!c.cpu.flags.carry && !c.cpu.flags.zero)

def jae : M Unit := do
  let c ← getCtx
  jif (!c.cpu.flags.carry)

def jb : M Unit := do
  let c ← getCtx
  jif c.cpu.flags.carry

def jbe : M Unit := do
  let c ← getCtx
  jif (c.cpu.flags.carry || c.cpu.flags.zero)

/-- Handler ldi_w from handlers.rs: the low nibble of the first operand
byte is a variant selector: 0 loads the 16-bit immediate into the wide
register, 1 is the fused unconditional jump, anything else is Invalid. -/
def ldi_w : M Unit := do
  let (r1, o) ← arg_pair WideRegister.mk Fin.val
  let w ← arg_imm_wide
  match o with
  | 0 => modifyCpu (fun cpu => cpu.write_wr r1 w)
  | 1 =>
    if r1 = R0 then modifyCpu (fun cpu => { cpu with program_counter := w })
    else do
      let c ← getCtx
      modifyCpu (fun cpu => { cpu with program_counter := c.cpu.read_wr r1 })
  | _ => throwT TrapMode.Invalid

/-- Rust u16 addition as used for effective addresses in handlers.rs: the
plain add is an arithmetic-overflow program error when the mathematical
sum does not fit in 16 bits. -/
def rustAddU16 (a b : Nat) : M Nat := fun c =>
  if a + b < 65536 then Res.ok (a + b) c else Res.crash

/-- Handler store_bi from handlers.rs. -/
def store_bi : M Unit := do
  let (r1, r2) ← arg_pair WideRegister.mk ByteRegister.mk
  let offset ← arg_imm_wide
  let c ← getCtx
  let addr ← rustAddU16 (c.cpu.read_wr r1) offset
  memWrite addr (c.cpu.read_br r2)

/-- Handler store_br from handlers.rs. -/
def store_br : M Unit := do
  let (r1, r2) ← arg_pair WideRegister.mk WideRegister.mk
  let (r3, z) ← arg_pair ByteRegister.mk Fin.val
  if z ≠ 0 then throwT TrapMode.Invalid
  else do
    let c ← getCtx
    let offset := c.cpu.read_wr r2
    let addr ← rustAddU16 (c.cpu.read_wr r1) offset
    memWrite addr (c.cpu.read_br r3)

/-- Handler store_wi from handlers.rs. -/
def store_wi : M Unit := do
  let (r1, r2) ← arg_pair WideRegister.mk WideRegister.mk
  let offset ← arg_imm_wide
  let c ← getCtx
  let addr ← rustAddU16 (c.cpu.read_wr r1) offset
  write_wide addr (c.cpu.read_wr r2)

/-- Handler store_wr from handlers.rs. -/
def store_wr : M Unit := do
  let (r1, r2) ← arg_pair WideRegister.mk WideRegister.mk
  let (r3, z) ← arg_pair WideRegister.mk Fin.val
  if z ≠ 0 then throwT TrapMode.Invalid
  else do
    let c ← getCtx
    let offset := c.cpu.read_wr r2
    let addr ← rustAddU16 (c.cpu.read_wr r1) offset
    write_wide addr (c.cpu.read_wr r3)

/-- Handler load_bi from handlers.rs. -/
def load_bi : M Unit := do
  let (r1, r2) ← arg_pair ByteRegister.mk WideRegister.mk
  let offset ← arg_imm_wide
  let c ← getCtx
  let addr ← rustAddU16 (c.cpu.read_wr r2) offset
  let val ← memRead addr
  modifyCpu (fun cpu => cpu.write_br r1 val)

/-- Handler load_br from handlers.rs. -/
def load_br : M Unit := do
  let (r1, r2) ← arg_pair ByteRegister.mk WideRegister.mk
  let (r3, z) ← arg_pair WideRegister.mk Fin.val
  if z ≠ 0 then throwT TrapMode.Invalid
  else do
    let c ← getCtx
    let offset := c.cpu.read_wr r3
    let addr ← rustAddU16 (c.cpu.read_wr r2) offset
    let val ← memRead addr
    modifyCpu (fun cpu => cpu.write_br r1 val)

/-- Handler load_wi from handlers.rs. -/
def load_wi : M Unit := do
  let (r1, r2) ← arg_pair WideRegister.mk WideRegister.mk
  let offset ← arg_imm_wide
  let c ← getCtx
  let addr ← rustAddU16 (c.cpu.read_wr r2) offset
  let val ← read_wide addr
  modifyCpu (fun cpu => cpu.write_wr r1 val)

/-- Handler load_wr from handlers.rs. -/
def load_wr : M Unit := do
  let (r1, r2) ← arg_pair WideRegister.mk WideRegister.mk
  let (r3, z) ← arg_pair WideRegister.mk Fin.val
  if z ≠ 0 then throwT TrapMode.Invalid
  else do
    let c ← getCtx
    let offset := c.cpu.read_wr r3
    let addr ← rustAddU16 (c.cpu.read_wr r2) offset
    let val ← read_wide addr
    modifyCpu (fun cpu => cpu.write_wr r1 val)

/-- A resolved-or-symbolic 16-bit immediate, Wide from source/mod.rs:
either a literal number or a label id. -/
inductive Wide where
  | Number : Nat → Wide
  | Label : Nat → Wide
deriving DecidableEq, Repr

/-- The typed operand tuples of the assembler, DataOperand from
source/mod.rs. -/
inductive DataOperand where
  | Nothing : DataOperand
  | ByteRegister : ByteRegister → DataOperand
  | WideRegister : WideRegister → DataOperand
  | ImmediateByte : Nat → DataOperand
  | ImmediateWide : Wide → DataOperand
  | ByteImm : ByteRegister → Nat → DataOperand
  | WideImm : WideRegister → Wide → DataOperand
  | WideImmByte : WideRegister → Wide → ByteRegister → DataOperand
  | WideImmWide : WideRegister → Wide → WideRegister → DataOperand
  | TwoWideOneByte : WideRegister → WideRegister → ByteRegister → DataOperand
  | ByteWideImm : ByteRegister → WideRegister → Wide → DataOperand
  | TwoWideImm : WideRegister → WideRegister → Wide → DataOperand
  | ByteTwoWide : ByteRegister → WideRegister → WideRegister → DataOperand
  | ThreeByte : ByteRegister → ByteRegister → ByteRegister → DataOperand
  | ThreeWide : WideRegister → WideRegister → WideRegister → DataOperand
  | FourByte : ByteRegister → ByteRegister → ByteRegister → ByteRegister → DataOperand
  | FourWide : WideRegister → WideRegister → WideRegister → WideRegister → DataOperand
deriving DecidableEq, Repr

/-- parse_wide from source/mod.rs: resolve a Wide against the label
resolver (the resolver stands for the read_label callback; it receives the
label id and the position of the immediate). -/
def parse_wide (read_label : Nat → Nat → Nat) (w : Wide) (position : Nat) : Nat :=
  match w with
  | Wide.Label l => read_label l position
  | Wide.Number n => n

/-- The two little-endian bytes of a u16 bit pattern. -/
def toLeBytes16 (v : Nat) : List Nat := [v % 256, v / 256 % 256]

/-- The encoder write_data_operand from source/mod.rs: serialize a typed
operand tuple to the operand bytes following the opcode byte.  The mem
buffer is returned as the produced byte list; immediate positions are
local to the operand. -/
def write_data_operand (read_label : Nat → Nat → Nat) (dat_op : DataOperand) : List Nat :=
  match dat_op with
  | DataOperand.Nothing => []
  | DataOperand.ByteRegister r => [U4.pair r.r 0]
  | DataOperand.WideRegister r => [U4.pair r.r 0]
  | DataOperand.ImmediateByte b => [b]
  | DataOperand.ImmediateWide w => toLeBytes16 (parse_wide read_label w 0)
  | DataOperand.ByteImm r b => [U4.pair r.r 0, b]
  | DataOperand.WideImm r w => U4.pair r.r 0 :: toLeBytes16 (parse_wide read_label w 1)
  | DataOperand.WideImmByte r1 w r2 =>
    U4.pair r1.r r2.r :: toLeBytes16 (parse_wide read_label w 1)
  | DataOperand.WideImmWide r1 w r2 =>
    U4.pair r1.r r2.r :: toLeBytes16 (parse_wide read_label w 1)
  | DataOperand.TwoWideOneByte r1 r2 r3 => [U4.pair r1.r r2.r, U4.pair r3.r 0]
  | DataOperand.ByteWideImm r1 r2 w =>
    U4.pair r1.r r2.r :: toLeBytes16 (parse_wide read_label w 1)
  | DataOperand.TwoWideImm r1 r2 w =>
    U4.pair r1.r r2.r :: toLeBytes16 (parse_wide read_label w 1)
  | DataOperand.ByteTwoWide r1 r2 r3 => [U4.pair r1.r r2.r, U4.pair r3.r 0]
  | DataOperand.ThreeByte r1 r2 r3 => [U4.pair r1.r r2.r, U4.pair r3.r 0]
  | DataOperand.ThreeWide r1 r2 r3 => [U4.pair r1.r r2.r, U4.pair r3.r 0]
  | DataOperand.FourByte r1 r2 r3 r4 => [U4.pair r1.r r2.r, U4.pair r3.r r4.r]
  | DataOperand.FourWide r1 r2 r3 r4 => [U4.pair r1.r r2.r, U4.pair r3.r r4.r]

/-- The operand shape alphabet (spec section 4.1); one shape per
DataOperand variant. -/
inductive Shape where
  | nothing
  | byteReg
  | wideReg
  | immByte
  | immWide
  | byteImm
  | wideImm
  | wideImmByte
  | wideImmWide
  | twoWideOneByte
  | byteWideImm
  | twoWideImm
  | byteTwoWide
  | threeByte
  | threeWide
  | fourByte
  | fourWide
deriving DecidableEq, Repr

/-- The shape of a typed operand tuple. -/
def shapeOf : DataOperand → Shape
  | DataOperand.Nothing => Shape.nothing
  | DataOperand.ByteRegister _ => Shape.byteReg
  | DataOperand.WideRegister _ => Shape.wideReg
  | DataOperand.ImmediateByte _ => Shape.immByte
  | DataOperand.ImmediateWide _ => Shape.immWide
  | DataOperand.ByteImm _ _ => Shape.byteImm
  | DataOperand.WideImm _ _ => Shape.wideImm
  | DataOperand.WideImmByte _ _ _ => Shape.wideImmByte
  | DataOperand.WideImmWide _ _ _ => Shape.wideImmWide
  | DataOperand.TwoWideOneByte _ _ _ => Shape.twoWideOneByte
  | DataOperand.ByteWideImm _ _ _ => Shape.byteWideImm
  | DataOperand.TwoWideImm _ _ _ => Shape.twoWideImm
  | DataOperand.ByteTwoWide _ _ _ => Shape.byteTwoWide
  | DataOperand.ThreeByte _ _ _ => Shape.threeByte
  | DataOperand.ThreeWide _ _ _ => Shape.threeWide
  | DataOperand.FourByte _ _ _ _ => Shape.fourByte
  | DataOperand.FourWide _ _ _ _ => Shape.fourWide

/-- The engine-side operand decoder for each shape, assembled from the
shared decoders of handlers.rs exactly as the handlers of that shape use
them (arg_pair with the matching register constructors, the zero-nibble
checks raising Invalid, and the little-endian immediate fetches). -/
def decodeShape : Shape → M DataOperand
  | Shape.nothing => pure DataOperand.Nothing
  | Shape.byteReg => do
    let (b, z) ← arg_pair ByteRegister.mk Fin.val
    if z ≠ 0 then throwT TrapMode.Invalid
    else pure (DataOperand.ByteRegister b)
  | Shape.wideReg => do
    let (w, z) ← arg_pair WideRegister.mk Fin.val
    if z ≠ 0 then throwT TrapMode.Invalid
    else pure (DataOperand.WideRegister w)
  | Shape.immByte => do
    let b ← arg_imm_byte
    pure (DataOperand.ImmediateByte b)
  | Shape.immWide => do
    let w ← arg_imm_wide
    pure (DataOperand.ImmediateWide (Wide.Number w))
  | Shape.byteImm => do
    let (r, z) ← arg_pair ByteRegister.mk Fin.val
    if z ≠ 0 then throwT TrapMode.Invalid
    else do
      let b ← arg_imm_byte
      pure (DataOperand.ByteImm r b)
  | Shape.wideImm => do
    let (r, z) ← arg_pair WideRegister.mk Fin.val
    if z ≠ 0 then throwT TrapMode.Invalid
    else do
      let w ← arg_imm_wide
      pure (DataOperand.WideImm r (Wide.Number w))
  | Shape.wideImmByte => do
    let (r1, r2) ← arg_pair WideRegister.mk ByteRegister.mk
    let w ← arg_imm_wide
    pure (DataOperand.WideImmByte r1 (Wide.Number w) r2)
  | Shape.wideImmWide => do
    let (r1, r2) ← arg_pair WideRegister.mk WideRegister.mk
    let w ← arg_imm_wide
    pure (DataOperand.WideImmWide r1 (Wide.Number w) r2)
  | Shape.twoWideOneByte => do
    let (r1, r2) ← arg_pair WideRegister.mk WideRegister.mk
    let (r3, z) ← arg_pair ByteRegister.mk Fin.val
    if z ≠ 0 then throwT TrapMode.Invalid
    else pure (DataOperand.TwoWideOneByte r1 r2 r3)
  | Shape.byteWideImm => do
    let (r1, r2) ← arg_pair ByteRegister.mk WideRegister.mk
    let w ← arg_imm_wide
    pure (DataOperand.ByteWideImm r1 r2 (Wide.Number w))
  | Shape.twoWideImm => do
    let (r1, r2) ← arg_pair WideRegister.mk WideRegister.mk
    let w ← arg_imm_wide
    pure (DataOperand.TwoWideImm r1 r2 (Wide.Number w))
  | Shape.byteTwoWide => do
    let (r1, r2) ← arg_pair ByteRegister.mk WideRegister.mk
    let (r3, z) ← arg_pair WideRegister.mk Fin.val
    if z ≠ 0 then throwT TrapMode.Invalid
    else pure (DataOperand.ByteTwoWide r1 r2 r3)
  | Shape.threeByte => do
    let (r1, r2) ← arg_pair ByteRegister.mk ByteRegister.mk
    let (r3, z) ← arg_pair ByteRegister.mk Fin.val
    if z ≠ 0 then throwT TrapMode.Invalid
    else pure (DataOperand.ThreeByte r1 r2 r3)
  | Shape.threeWide => do
    let (r1, r2) ← arg_pair WideRegister.mk WideRegister.mk
    let (r3, z) ← arg_pair WideRegister.mk Fin.val
    if z ≠ 0 then throwT TrapMode.Invalid
    else pure (DataOperand.ThreeWide r1 r2 r3)
  | Shape.fourByte => do
    let (r1, r2) ← arg_pair ByteRegister.mk ByteRegister.mk
    let (r3, r4) ← arg_pair ByteRegister.mk ByteRegister.mk
    pure (DataOperand.FourByte r1 r2 r3 r4)
  | Shape.fourWide => do
    let (r1, r2) ← arg_pair WideRegister.mk WideRegister.mk
    let (r3, r4) ← arg_pair WideRegister.mk WideRegister.mk
    pure (DataOperand.FourWide r1 r2 r3 r4)

/-- All-false flag word. -/
def flags0 : Flags := ⟨false, false, false, false, false, false, false⟩

/-- A CPU whose registers and distinguished state are all zero. -/
def cpu0 : Cpu := ⟨fun _ => 0, fun _ => 0, 0, 0, 0, flags0⟩

/-- A context whose operand stream is the given byte list. -/
def mkDecodeCtx (bytes : List Nat) : Ctx := ⟨cpu0, bytes, fun _ => 0, fun _ => 0⟩

/-- Run a shape decoder on a byte list; on acceptance return the decoded
tuple and the unconsumed bytes. -/
def decodeRun (S : Shape) (bytes : List Nat) : Option (DataOperand × List Nat) :=
  match decodeShape S (mkDecodeCtx bytes) with
  | Res.ok d c => some (d, c.stream)
  | _ => none

/-- A legal operand tuple: register fields are nibbles by construction,
every immediate is a resolved number that fits its width. -/
def wfb : DataOperand → Bool
  | DataOperand.Nothing => true
  | DataOperand.ByteRegister _ => true
  | DataOperand.WideRegister _ => true
  | DataOperand.ImmediateByte b => decide (b < 256)
  | DataOperand.ImmediateWide (Wide.Number n) => decide (n < 65536)
  | DataOperand.ImmediateWide (Wide.Label _) => false
  | DataOperand.ByteImm _ b => decide (b < 256)
  | DataOperand.WideImm _ (Wide.Number n) => decide (n < 65536)
  | DataOperand.WideImm _ (Wide.Label _) => false
  | DataOperand.WideImmByte _ (Wide.Number n) _ => decide (n < 65536)
  | DataOperand.WideImmByte _ (Wide.Label _) _ => false
  | DataOperand.WideImmWide _ (Wide.Number n) _ => decide (n < 65536)
  | DataOperand.WideImmWide _ (Wide.Label _) _ => false
  | DataOperand.TwoWideOneByte _ _ _ => true
  | DataOperand.ByteWideImm _ _ (Wide.Number n) => decide (n < 65536)
  | DataOperand.ByteWideImm _ _ (Wide.Label _) => false
  | DataOperand.TwoWideImm _ _ (Wide.Number n) => decide (n < 65536)
  | DataOperand.TwoWideImm _ _ (Wide.Label _) => false
  | DataOperand.ByteTwoWide _ _ _ => true
  | DataOperand.ThreeByte _ _ _ => true
  | DataOperand.ThreeWide _ _ _ => true
  | DataOperand.FourByte _ _ _ _ => true
  | DataOperand.FourWide _ _ _ _ => true

/-- The parsed operands of one assembly source line, SourceOperand from
source/mod.rs (Number carries the i32 literal). -/
inductive SourceOperand where
  | Byte : Nat → SourceOperand
  | Wide : Nat → SourceOperand
  | Number : Int → SourceOperand
  | ByteReg : ByteRegister → SourceOperand
  | WideReg : WideRegister → SourceOperand
  | Label : String → SourceOperand
deriving DecidableEq, Repr

/-- The register alias BReg used by source/mod.rs. -/
abbrev BReg := ByteRegister

/-- The register alias WReg used by source/mod.rs. -/
abbrev WReg := WideRegister

/-- DataOperand::byte from source/mod.rs. -/
def DataOperand.byte : SourceOperand → Option BReg
  | SourceOperand.ByteReg r => some r
  | _ => none

/-- DataOperand::wide from source/mod.rs. -/
def DataOperand.wide : SourceOperand → Option WReg
  | SourceOperand.WideReg r => some r
  | _ => none

/-- DataOperand::imm_wide from source/mod.rs: a Number literal is cast to
u16, a Wide literal is taken as is, and a label becomes a symbol id via
the symbol table (modelled as a function from names to ids). -/
def DataOperand.imm_wide (sym : String → Nat) : SourceOperand → Option Wide
  | SourceOperand.Number n => some (Wide.Number (Int.toNat (n % 65536)))
  | SourceOperand.Wide n => some (Wide.Number n)
  | SourceOperand.Label lbl => some (Wide.Label (sym lbl))
  | _ => none

/-- DataOperand::parse_nothing from source/mod.rs. -/
def DataOperand.parse_nothing : List SourceOperand → Option DataOperand
  | [] => some DataOperand.Nothing
  | _ => none

/-- DataOperand::parse_wreg from source/mod.rs. -/
def DataOperand.parse_wreg : List SourceOperand → Option DataOperand
  | [] => none
  | op :: rest => do
    let wreg ← DataOperand.wide op
    let _ ← DataOperand.parse_nothing rest
    some (DataOperand.WideRegister wreg)

/-- DataOperand::parse_imm_wide from source/mod.rs. -/
def DataOperand.parse_imm_wide (sym : String → Nat) : List SourceOperand → Option DataOperand
  | [] => none
  | op :: rest => do
    let w ← DataOperand.imm_wide sym op
    let _ ← DataOperand.parse_nothing rest
    some (DataOperand.ImmediateWide w)

/-- Modelled from the spec: the numeric value of the LDI_W opcode byte is
defined in the isa constants module, which is not among the available
sources; its exact value is immaterial to every claim under proof, so an
arbitrary fixed byte is used. -/
def LDI_W : Nat := 45

/-- The jmp / jump arm of parse_ins from source/mod.rs: an address operand
becomes LDI_W with tuple (R0, R1, imm); a wide register other than r0
becomes LDI_W with tuple (reg, R1, 0); the wide register r0 is rejected
with an error. -/
def parse_ins_jmp (sym : String → Nat) (ops : List SourceOperand) :
    Except String (Nat × DataOperand) :=
  match DataOperand.parse_imm_wide sym ops with
  | some (DataOperand.ImmediateWide w) =>
    Except.ok (LDI_W, DataOperand.TwoWideImm R0 R1 w)
  | some _ => Except.error "unreachable"
  | none =>
    match DataOperand.parse_wreg ops with
    | some (DataOperand.WideRegister wr) =>
      if wr = R0 then Except.error "r0 is not a valid jmp destination"
      else Except.ok (LDI_W, DataOperand.TwoWideImm wr R1 (Wide.Number 0))
    | some _ => Except.error "unreachable"
    | none => Except.error "address or wide register"

/-- Map a function over the context of a normal result, leaving traps and
crashes alone (the effect of a trailing mutation after a fallible call). -/
def Res.withOkCtx {α : Type} (f : Ctx → Ctx) : Res α → Res α
  | Res.ok a c => Res.ok a (f c)
  | Res.trap t c => Res.trap t c
  | Res.crash => Res.crash

/-- Clear the trap flag of a context. -/
def clearTrapFlag (c : Ctx) : Ctx :=
  { c with cpu := { c.cpu with flags := { c.cpu.flags with trap := false } } }

/-- The flag word after running a handler to a normal result. -/
def afterFlags (m : M Unit) (c : Ctx) : Option Flags :=
  match m c with
  | Res.ok _ c2 => some c2.cpu.flags
  | _ => none

/-- Build a context from a CPU and an operand stream, with zeroed
memories. -/
def mkCtx (cpu : Cpu) (bytes : List Nat) : Ctx := ⟨cpu, bytes, fun _ => 0, fun _ => 0⟩

/-- A wide register file holding a in selector 2 and b in selector 3. -/
def testWregs (a b : Nat) : U4 → Nat := fun i => if i = 2 then a else if i = 3 then b else 0

/-- A byte register file holding a in selector 2 and b in selector 3. -/
def testBregs (a b : Nat) : U4 → Nat := fun i => if i = 2 then a else if i = 3 then b else 0

/-- Context for a byte binop with destination selector 1 and source values
a and b: operand bytes 0x12 0x30. -/
def mkBCtx (a b : Nat) : Ctx := mkCtx ⟨fun _ => 0, testBregs a b, 0, 0, 0, flags0⟩ [18, 48]

/-- Context for a wide binop with destination selector 1 and source values
a and b: operand bytes 0x12 0x30. -/
def mkWCtx (a b : Nat) : Ctx := mkCtx ⟨testWregs a b, fun _ => 0, 0, 0, 0, flags0⟩ [18, 48]

/-- Context at program counter 0x10 with flags zero set, sign and overflow
clear, and the operand bytes of a conditional jump to 0x0100. -/
def c6Ctx : Ctx :=
  mkCtx ⟨fun _ => 0, fun _ => 0, 16, 0, 0, ⟨true, false, false, false, false, false, false⟩⟩ [0, 1]

/-- Context for STORE_BI with base register r1 holding 0xFFFF and
immediate offset 1: operand bytes 0x12 0x01 0x00. -/
def c7Ctx : Ctx :=
  mkCtx ⟨fun i => if i = 1 then 65535 else 0, fun _ => 0, 0, 0, 0, flags0⟩ [18, 1, 0]

/-- A context whose CPU is in user mode with an empty operand stream. -/
def userCtx : Ctx :=
  mkCtx ⟨fun _ => 0, fun _ => 0, 0, 0, 0, ⟨false, false, false, false, false, true, false⟩⟩ []

/-- A context whose CPU has the trap flag set. -/
def trapCtx : Ctx :=
  mkCtx ⟨fun _ => 0, fun _ => 0, 0, 0, 0, ⟨false, false, false, false, true, false, false⟩⟩ []

/-- A context whose CPU has the trap flag clear. -/
def noTrapCtx : Ctx := mkCtx ⟨fun _ => 0, fun _ => 0, 0, 0, 0, flags0⟩ []

/-- The ADD flag laws at byte width, evaluated on the canonical binop
context: carry is unsigned overflow, overflow is signed (two-complement)
overflow, sign is the high bit of the result, zero is result equal 0. -/
def AddLawsB (a b : Nat) : Prop :=
  ∃ fl, afterFlags add_b (mkBCtx a b) = some fl ∧
    (fl.carry = true ↔ 256 ≤ a + b) ∧
    (fl.overflow = true ↔ (toI8 a + toI8 b < -128 ∨ 127 < toI8 a + toI8 b)) ∧
    (fl.sign = true ↔ 128 ≤ (a + b) % 256) ∧
    (fl.zero = true ↔ (a + b) % 256 = 0)

/-- The SUB flag laws at byte width. -/
def SubLawsB (a b : Nat) : Prop :=
  ∃ fl, afterFlags sub_b (mkBCtx a b) = some fl ∧
    (fl.carry = true ↔ a < b) ∧
    (fl.overflow = true ↔ (toI8 a - toI8 b < -128 ∨ 127 < toI8 a - toI8 b)) ∧
    (fl.sign = true ↔ 128 ≤ (a + 256 - b) % 256) ∧
    (fl.zero = true ↔ a = b)

/-- A bitwise byte operation succeeds and clears carry and overflow. -/
def BitwiseLawsB (op : M Unit) (a b : Nat) : Prop :=
  ∃ fl, afterFlags op (mkBCtx a b) = some fl ∧ fl.carry = false ∧ fl.overflow = false

/-- Whenever a byte shift completes normally, carry and overflow are
clear. -/
def ShiftLawsB (op : M Unit) (a b : Nat) : Prop :=
  ∀ fl, afterFlags op (mkBCtx a b) = some fl → fl.carry = false ∧ fl.overflow = false

/-- The ADD flag laws at wide width. -/
def AddLawsW (a b : Nat) : Prop :=
  ∃ fl, afterFlags add_w (mkWCtx a b) = some fl ∧
    (fl.carry = true ↔ 65536 ≤ a + b) ∧
    (fl.overflow = true ↔ (toI16 a + toI16 b < -32768 ∨ 32767 < toI16 a + toI16 b)) ∧
    (fl.sign = true ↔ 32768 ≤ (a + b) % 65536) ∧
    (fl.zero = true ↔ (a + b) % 65536 = 0)

/-- The SUB flag laws at wide width. -/
def SubLawsW (a b : Nat) : Prop :=
  ∃ fl, afterFlags sub_w (mkWCtx a b) = some fl ∧
    (fl.carry = true ↔ a < b) ∧
    (fl.overflow = true ↔ (toI16 a - toI16 b < -32768 ∨ 32767 < toI16 a - toI16 b)) ∧
    (fl.sign = true ↔ 32768 ≤ (a + 65536 - b) % 65536) ∧
    (fl.zero = true ↔ a = b)

/-- A bitwise wide operation succeeds and clears carry and overflow. -/
def BitwiseLawsW (op : M Unit) (a b : Nat) : Prop :=
  ∃ fl, afterFlags op (mkWCtx a b) = some fl ∧ fl.carry = false ∧ fl.overflow = false

/-- Whenever a wide shift completes normally, carry and overflow are
clear. -/
def ShiftLawsW (op : M Unit) (a b : Nat) : Prop :=
  ∀ fl, afterFlags op (mkWCtx a b) = some fl → fl.carry = false ∧ fl.overflow = false

@[simp]
theorem M_bind_run {α β : Type} (m : M α) (f : α → M β) (c : Ctx) :
    (m >>= f) c =
      match m c with
      | Res.ok a c2 => f a c2
      | Res.trap t c2 => Res.trap t c2
      | Res.crash => Res.crash := rfl

@[simp]
theorem M_pure_run {α : Type} (a : α) (c : Ctx) : (pure a : M α) c = Res.ok a c := rfl

@[simp]
theorem throwT_run {α : Type} (t : TrapMode) (c : Ctx) : (throwT t : M α) c = Res.trap t c := rfl

@[simp]
theorem getCtx_run (c : Ctx) : getCtx c = Res.ok c c := rfl

@[simp]
theorem setCtx_run (c2 c : Ctx) : setCtx c2 c = Res.ok () c2 := rfl

@[simp]
theorem modifyCpu_run (f : Cpu → Cpu) (c : Ctx) :
    modifyCpu f c = Res.ok () { c with cpu := f c.cpu } := rfl

@[simp]
theorem fetch_cons (cpu : Cpu) (b : Nat) (rest : List Nat) (mem pmem : Nat → Nat) :
    fetch ⟨cpu, b :: rest, mem, pmem⟩ = Res.ok b ⟨cpu.bump, rest, mem, pmem⟩ := rfl

@[simp]
theorem fetch_nil (cpu : Cpu) (mem pmem : Nat → Nat) :
    fetch ⟨cpu, [], mem, pmem⟩ = Res.trap TrapMode.MemFault ⟨cpu, [], mem, pmem⟩ := rfl

@[simp]
theorem U4_paired_pair (a b : U4) : U4.paired (U4.pair a b) = (a, b) := by
  have ha := a.isLt
  have hb := b.isLt
  simp only [U4.paired, U4.pair, Prod.mk.injEq, Fin.ext_iff]
  constructor <;> omega

/-- C2.  A CPU in user mode executing any of the privileged opcodes USR,
VMON, VMOFF, PSTORE, PLOAD raises the IllegalOperation trap, and the whole
architectural state (registers, flags and both memories, as well as the
program counter and the pending operand stream) is exactly the state at
entry to the faulting instruction. -/
theorem privileged_opcodes_trap_in_user_mode (cpu : Cpu) (st : List Nat)
    (mem pmem : Nat → Nat) (h : cpu.flags.user_mode = true) :
    usr ⟨cpu, st, mem, pmem⟩ = Res.trap TrapMode.IllegalOperation ⟨cpu, st, mem, pmem⟩ ∧
    vmon ⟨cpu, st, mem, pmem⟩ = Res.trap TrapMode.IllegalOperation ⟨cpu, st, mem, pmem⟩ ∧
    vmoff ⟨cpu, st, mem, pmem⟩ = Res.trap TrapMode.IllegalOperation ⟨cpu, st, mem, pmem⟩ ∧
    pstore ⟨cpu, st, mem, pmem⟩ = Res.trap TrapMode.IllegalOperation ⟨cpu, st, mem, pmem⟩ ∧
    pload ⟨cpu, st, mem, pmem⟩ = Res.trap TrapMode.IllegalOperation ⟨cpu, st, mem, pmem⟩ := by
  refine ⟨?_, ?_, ?_, ?_, ?_⟩ <;> simp [usr, vmon, vmoff, pstore, pload, h]

/-- C2 witness: the five privileged opcodes all trap with IllegalOperation
on a concrete user-mode context. -/
theorem privileged_opcodes_trap_in_user_mode_witness :
    usr userCtx = Res.trap TrapMode.IllegalOperation userCtx ∧
    vmon userCtx = Res.trap TrapMode.IllegalOperation userCtx ∧
    vmoff userCtx = Res.trap TrapMode.IllegalOperation userCtx ∧
    pstore userCtx = Res.trap TrapMode.IllegalOperation userCtx ∧
    pload userCtx = Res.trap TrapMode.IllegalOperation userCtx :=
  privileged_opcodes_trap_in_user_mode _ _ _ _ rfl

theorem add_b_flags (a b : Nat) : AddLawsB a b := by
  refine ⟨⟨decide ((a + b) % 256 = 0), decide (wrapI8 (toI8 a + toI8 b) < 0),
    decide (256 ≤ a + b), decide (toI8 a + toI8 b < -128 ∨ 127 < toI8 a + toI8 b),
    false, false, false⟩, rfl, ?_, ?_, ?_, ?_⟩
  · simp
  · simp
  · simp only [decide_eq_true_eq, wrapI8, toI8]
    omega
  · simp

theorem sub_b_flags (a b : Nat) (ha : a < 256) (hb : b < 256) : SubLawsB a b := by
  refine ⟨⟨decide ((a + 256 - b % 256) % 256 = 0), decide (wrapI8 (toI8 a - toI8 b) < 0),
    decide (a < b), decide (toI8 a - toI8 b < -128 ∨ 127 < toI8 a - toI8 b),
    false, false, false⟩, rfl, ?_, ?_, ?_, ?_⟩
  · simp
  · simp
  · simp only [decide_eq_true_eq, wrapI8, toI8]
    omega
  · simp only [decide_eq_true_eq]
    omega

theorem and_b_flags (a b : Nat) : BitwiseLawsB and_b a b := ⟨_, rfl, rfl, rfl⟩

theorem or_b_flags (a b : Nat) : BitwiseLawsB or_b a b := ⟨_, rfl, rfl, rfl⟩

theorem xor_b_flags (a b : Nat) : BitwiseLawsB xor_b a b := ⟨_, rfl, rfl, rfl⟩

theorem add_w_flags (a b : Nat) : AddLawsW a b := by
  refine ⟨⟨decide ((a + b) % 65536 = 0), decide (wrapI16 (toI16 a + toI16 b) < 0),
    decide (65536 ≤ a + b), decide (toI16 a + toI16 b < -32768 ∨ 32767 < toI16 a + toI16 b),
    false, false, false⟩, rfl, ?_, ?_, ?_, ?_⟩
  · simp
  · simp
  · simp only [decide_eq_true_eq, wrapI16, toI16]
    omega
  · simp

theorem sub_w_flags (a b : Nat) (ha : a < 65536) (hb : b < 65536) : SubLawsW a b := by
  refine ⟨⟨decide ((a + 65536 - b % 65536) % 65536 = 0), decide (wrapI16 (toI16 a - toI16 b) < 0),
    decide (a < b), decide (toI16 a - toI16 b < -32768 ∨ 32767 < toI16 a - toI16 b),
    false, false, false⟩, rfl, ?_, ?_, ?_, ?_⟩
  · simp
  · simp
  · simp only [decide_eq_true_eq, wrapI16, toI16]
    omega
  · simp only [decide_eq_true_eq]
    omega

theorem and_w_flags (a b : Nat) : BitwiseLawsW and_w a b := ⟨_, rfl, rfl, rfl⟩

theorem or_w_flags (a b : Nat) : BitwiseLawsW or_w a b := ⟨_, rfl, rfl, rfl⟩

theorem xor_w_flags (a b : Nat) : BitwiseLawsW xor_w a b := ⟨_, rfl, rfl, rfl⟩

theorem binop_b_clears_co (f : Nat → Nat → Option (Nat × Bool))
    (g : Int → Int → Option (Int × Bool)) (a b : Nat)
    (hf : ∀ r c, f a b = some (r, c) → c = false)
    (hg : ∀ r c, g (toI8 a) (toI8 b) = some (r, c) → c = false) :
    ShiftLawsB (binop_b f g) a b := by
  intro fl h
  cases hfa : f a b with
  | none =>
    simp [afterFlags, binop_b, arg_pair, mkBCtx, mkCtx, Cpu.read_br, Cpu.write_br, Cpu.bump,
      testBregs, U4.paired, flags0, crashM, hfa] at h
  | some vc =>
    obtain ⟨rv, cv⟩ := vc
    cases hga : g (toI8 a) (toI8 b) with
    | none =>
      simp [afterFlags, binop_b, arg_pair, mkBCtx, mkCtx, Cpu.read_br, Cpu.write_br, Cpu.bump,
        testBregs, U4.paired, flags0, crashM, hfa, hga] at h
    | some vc2 =>
      obtain ⟨rv2, cv2⟩ := vc2
      simp [afterFlags, binop_b, arg_pair, mkBCtx, mkCtx, Cpu.read_br, Cpu.write_br, Cpu.bump,
        testBregs, U4.paired, flags0, crashM, hfa, hga] at h
      subst h
      exact ⟨hf rv cv hfa, hg rv2 cv2 hga⟩

theorem binop_w_clears_co (f : Nat → Nat → Option (Nat × Bool))
    (g : Int → Int → Option (Int × Bool)) (a b : Nat)
    (hf : ∀ r c, f a b = some (r, c) → c = false)
    (hg : ∀ r c, g (toI16 a) (toI16 b) = some (r, c) → c = false) :
    ShiftLawsW (binop_w f g) a b := by
  intro fl h
  cases hfa : f a b with
  | none =>
    simp [afterFlags, binop_w, arg_pair, mkWCtx, mkCtx, Cpu.read_wr, Cpu.write_wr, Cpu.bump,
      testWregs, U4.paired, flags0, crashM, hfa] at h
  | some vc =>
    obtain ⟨rv, cv⟩ := vc
    cases hga : g (toI16 a) (toI16 b) with
    | none =>
      simp [afterFlags, binop_w, arg_pair, mkWCtx, mkCtx, Cpu.read_wr, Cpu.write_wr, Cpu.bump,
        testWregs, U4.paired, flags0, crashM, hfa, hga] at h
    | some vc2 =>
      obtain ⟨rv2, cv2⟩ := vc2
      simp [afterFlags, binop_w, arg_pair, mkWCtx, mkCtx, Cpu.read_wr, Cpu.write_wr, Cpu.bump,
        testWregs, U4.paired, flags0, crashM, hfa, hga] at h
      subst h
      exact ⟨hf rv cv hfa, hg rv2 cv2 hga⟩

theorem shl_b_flags (a b : Nat) : ShiftLawsB shl_b a b := by
  refine binop_b_clears_co u8_shl i8_shl a b ?_ ?_
  · intro r c hrc
    by_cases h8 : b < 8 <;> simp [u8_shl, h8] at hrc
    exact hrc.2
  · intro r c hrc
    by_cases h8 : 0 ≤ toI8 b ∧ toI8 b < 8 <;> simp [i8_shl, h8] at hrc
    exact hrc.2

theorem asr_b_flags (a b : Nat) : ShiftLawsB asr_b a b := by
  refine binop_b_clears_co u8_asr i8_asr a b ?_ ?_
  · intro r c hrc
    by_cases h8 : b < 8 <;> simp [u8_asr, h8] at hrc
    exact hrc.2
  · intro r c hrc
    by_cases h8 : 0 ≤ toI8 b ∧ toI8 b < 8 <;> simp [i8_asr, h8] at hrc
    exact hrc.2

theorem lsr_b_flags (a b : Nat) : ShiftLawsB lsr_b a b := by
  refine binop_b_clears_co u8_lsr i8_lsr a b ?_ ?_
  · intro r c hrc
    by_cases h8 : b < 8 <;> simp [u8_lsr, h8] at hrc
    exact hrc.2
  · intro r c hrc
    by_cases h8 : 0 ≤ toI8 b ∧ toI8 b < 8 <;> simp [i8_lsr, h8] at hrc
    exact hrc.2

theorem shl_w_flags (a b : Nat) : ShiftLawsW shl_w a b := by
  refine binop_w_clears_co u16_shl i16_shl a b ?_ ?_
  · intro r c hrc
    by_cases h8 : b < 16 <;> simp [u16_shl, h8] at hrc
    exact hrc.2
  · intro r c hrc
    by_cases h8 : 0 ≤ toI16 b ∧ toI16 b < 16 <;> simp [i16_shl, h8] at hrc
    exact hrc.2

theorem asr_w_flags (a b : Nat) : ShiftLawsW asr_w a b := by
  refine binop_w_clears_co u16_asr i16_asr a b ?_ ?_
  · intro r c hrc
    by_cases h8 : b < 16 <;> simp [u16_asr, h8] at hrc
    exact hrc.2
  · intro r c hrc
    by_cases h8 : 0 ≤ toI16 b ∧ toI16 b < 16 <;> simp [i16_asr, h8] at hrc
    exact hrc.2

theorem lsr_w_flags (a b : Nat) : ShiftLawsW lsr_w a b := by
  refine binop_w_clears_co u16_lsr i16_lsr a b ?_ ?_
  · intro r c hrc
    by_cases h8 : b < 16 <;> simp [u16_lsr, h8] at hrc
    exact hrc.2
  · intro r c hrc
    by_cases h8 : 0 ≤ toI16 b ∧ toI16 b < 16 <;> simp [i16_lsr, h8] at hrc
    exact hrc.2

/-- C3.  Flag laws for the binary operations at byte and wide width: after
ADD, zero holds iff the result is 0, carry iff the unsigned sum overflows,
overflow iff the signed (two-complement) sum overflows, and sign iff the
result high bit is set; the analogous laws hold for SUB; and after every
bitwise operation (AND, OR, XOR and the three shifts) carry and overflow
are both false. -/
theorem binop_flag_laws (a b aw bw : Nat) (ha : a < 256) (hb : b < 256)
    (haw : aw < 65536) (hbw : bw < 65536) :
    AddLawsB a b ∧ SubLawsB a b ∧
    BitwiseLawsB and_b a b ∧ BitwiseLawsB or_b a b ∧ BitwiseLawsB xor_b a b ∧
    ShiftLawsB shl_b a b ∧ ShiftLawsB asr_b a b ∧ ShiftLawsB lsr_b a b ∧
    AddLawsW aw bw ∧ SubLawsW aw bw ∧
    BitwiseLawsW and_w aw bw ∧ BitwiseLawsW or_w aw bw ∧ BitwiseLawsW xor_w aw bw ∧
    ShiftLawsW shl_w aw bw ∧ ShiftLawsW asr_w aw bw ∧ ShiftLawsW lsr_w aw bw :=
  ⟨add_b_flags a b, sub_b_flags a b ha hb,
   and_b_flags a b, or_b_flags a b, xor_b_flags a b,
   shl_b_flags a b, asr_b_flags a b, lsr_b_flags a b,
   add_w_flags aw bw, sub_w_flags aw bw haw hbw,
   and_w_flags aw bw, or_w_flags aw bw, xor_w_flags aw bw,
   shl_w_flags aw bw, asr_w_flags aw bw, lsr_w_flags aw bw⟩

/-- C3 witness: the flag laws instantiated at the concrete byte operands
200 and 100 and the concrete wide operands 40000 and 30000. -/
theorem binop_flag_laws_witness :
    AddLawsB 200 100 ∧ SubLawsB 200 100 ∧
    BitwiseLawsB and_b 200 100 ∧ BitwiseLawsB or_b 200 100 ∧ BitwiseLawsB xor_b 200 100 ∧
    ShiftLawsB shl_b 200 100 ∧ ShiftLawsB asr_b 200 100 ∧ ShiftLawsB lsr_b 200 100 ∧
    AddLawsW 40000 30000 ∧ SubLawsW 40000 30000 ∧
    BitwiseLawsW and_w 40000 30000 ∧ BitwiseLawsW or_w 40000 30000 ∧
    BitwiseLawsW xor_w 40000 30000 ∧
    ShiftLawsW shl_w 40000 30000 ∧ ShiftLawsW asr_w 40000 30000 ∧
    ShiftLawsW lsr_w 40000 30000 :=
  binop_flag_laws 200 100 40000 30000 (by decide) (by decide) (by decide) (by decide)

/-- C9.  RETH with the trap flag clear raises IllegalHandlerReturn and
changes nothing; RETH with the trap flag set runs the saved-register pop
and then clears the trap flag (a trap inside the pop propagates with the
trap flag untouched). -/
theorem reth_spec (cpu : Cpu) (st : List Nat) (mem pmem : Nat → Nat) :
    (cpu.flags.trap = false →
      reth ⟨cpu, st, mem, pmem⟩ =
        Res.trap TrapMode.IllegalHandlerReturn ⟨cpu, st, mem, pmem⟩) ∧
    (cpu.flags.trap = true →
      reth ⟨cpu, st, mem, pmem⟩ =
        Res.withOkCtx clearTrapFlag (pop_registers ⟨cpu, st, mem, pmem⟩)) := by
  constructor
  · intro h
    simp [reth, h]
  · intro h
    cases hp : pop_registers ⟨cpu, st, mem, pmem⟩ <;>
      simp [reth, h, Res.withOkCtx, clearTrapFlag, hp]

/-- C9 witness: on a concrete context with the trap flag set RETH performs
the register pop and clears the trap flag, and on a concrete context with
the trap flag clear it raises IllegalHandlerReturn unchanged. -/
theorem reth_spec_witness :
    reth noTrapCtx = Res.trap TrapMode.IllegalHandlerReturn noTrapCtx ∧
    reth trapCtx = Res.withOkCtx clearTrapFlag (pop_registers trapCtx) :=
  ⟨(reth_spec _ _ _ _).1 rfl, (reth_spec _ _ _ _).2 rfl⟩

/-- C4.  LDI_W decodes (register nibble, variant nibble, little-endian
16-bit immediate).  Variant 0 writes the immediate to the wide register;
variant 1 is the unconditional jump: with the zero selector the program
counter becomes the immediate, otherwise it becomes the register value;
every other variant nibble raises Invalid. -/
theorem ldi_w_spec (cpu : Cpu) (mem pmem : Nat → Nat) (r1 o : U4) (l h : Nat)
    (rest : List Nat) :
    (o = 0 →
      ldi_w ⟨cpu, U4.pair r1 o :: l :: h :: rest, mem, pmem⟩ =
        Res.ok () ⟨Cpu.write_wr cpu.bump.bump.bump ⟨r1⟩ (l + 256 * h), rest, mem, pmem⟩) ∧
    (o = 1 → r1 = 0 →
      ldi_w ⟨cpu, U4.pair r1 o :: l :: h :: rest, mem, pmem⟩ =
        Res.ok () ⟨{ cpu.bump.bump.bump with program_counter := l + 256 * h }, rest, mem, pmem⟩) ∧
    (o = 1 → r1 ≠ 0 →
      ldi_w ⟨cpu, U4.pair r1 o :: l :: h :: rest, mem, pmem⟩ =
        Res.ok () ⟨{ cpu.bump.bump.bump with program_counter := cpu.wregs r1 }, rest, mem, pmem⟩) ∧
    (2 ≤ o.val →
      ldi_w ⟨cpu, U4.pair r1 o :: l :: h :: rest, mem, pmem⟩ =
        Res.trap TrapMode.Invalid ⟨cpu.bump.bump.bump, rest, mem, pmem⟩) := by
  refine ⟨?_, ?_, ?_, ?_⟩
  · intro h0
    subst h0
    simp [ldi_w, arg_pair, arg_imm_wide]
  · intro h1 hr
    subst h1
    subst hr
    simp [ldi_w, arg_pair, arg_imm_wide, R0]
  · intro h1 hr
    subst h1
    have hne : (⟨r1⟩ : WideRegister) ≠ R0 := by
      simp [R0]
      exact hr
    simp [ldi_w, arg_pair, arg_imm_wide, hne, Cpu.read_wr, hr, Cpu.bump]
  · intro h2
    obtain ⟨ov, hv⟩ := o
    rcases ov with _ | _ | ov2
    · simp at h2
    · simp at h2
    · simp [ldi_w, arg_pair, arg_imm_wide]

/-- C4 witness: the spec scenario LDI_W r0 with variant nibble 1 and
immediate 0x0100 sets the program counter to 0x0100. -/
theorem ldi_w_spec_witness :
    ldi_w ⟨cpu0, U4.pair 0 1 :: 0 :: 1 :: [], fun _ => 0, fun _ => 0⟩ =
      Res.ok () ⟨{ cpu0.bump.bump.bump with program_counter := 0 + 256 * 1 }, [],
        fun _ => 0, fun _ => 0⟩ :=
  (ldi_w_spec cpu0 (fun _ => 0) (fun _ => 0) 0 1 0 1 []).2.1 rfl rfl

/-- C5.  DIV at both widths: with a non-zero divisor (register 4 of the
tuple) the quotient of register 3 by register 4 is written to register 1
and the remainder to register 2; with divisor 0 the ZeroDiv trap is raised
and no register is written (only the program counter has advanced over the
operand bytes). -/
theorem div_spec (cpu : Cpu) (mem pmem : Nat → Nat) (q r s t : U4) (rest : List Nat) :
    (Cpu.read_br cpu ⟨t⟩ = 0 →
      div_b ⟨cpu, U4.pair q r :: U4.pair s t :: rest, mem, pmem⟩ =
        Res.trap TrapMode.ZeroDiv ⟨cpu.bump.bump, rest, mem, pmem⟩) ∧
    (Cpu.read_br cpu ⟨t⟩ ≠ 0 →
      div_b ⟨cpu, U4.pair q r :: U4.pair s t :: rest, mem, pmem⟩ =
        Res.ok () ⟨Cpu.write_br (Cpu.write_br cpu.bump.bump ⟨q⟩
            (Cpu.read_br cpu ⟨s⟩ / Cpu.read_br cpu ⟨t⟩)) ⟨r⟩
            (Cpu.read_br cpu ⟨s⟩ % Cpu.read_br cpu ⟨t⟩), rest, mem, pmem⟩) ∧
    (Cpu.read_wr cpu ⟨t⟩ = 0 →
      div_w ⟨cpu, U4.pair q r :: U4.pair s t :: rest, mem, pmem⟩ =
        Res.trap TrapMode.ZeroDiv ⟨cpu.bump.bump, rest, mem, pmem⟩) ∧
    (Cpu.read_wr cpu ⟨t⟩ ≠ 0 →
      div_w ⟨cpu, U4.pair q r :: U4.pair s t :: rest, mem, pmem⟩ =
        Res.ok () ⟨Cpu.write_wr (Cpu.write_wr cpu.bump.bump ⟨q⟩
            (Cpu.read_wr cpu ⟨s⟩ / Cpu.read_wr cpu ⟨t⟩)) ⟨r⟩
            (Cpu.read_wr cpu ⟨s⟩ % Cpu.read_wr cpu ⟨t⟩), rest, mem, pmem⟩) := by
  have hbr : ∀ x : U4, Cpu.read_br cpu.bump.bump ⟨x⟩ = Cpu.read_br cpu ⟨x⟩ := by
    intro x
    simp [Cpu.read_br, Cpu.bump]
  have hwr : ∀ x : U4, Cpu.read_wr cpu.bump.bump ⟨x⟩ = Cpu.read_wr cpu ⟨x⟩ := by
    intro x
    simp [Cpu.read_wr, Cpu.bump]
  refine ⟨?_, ?_, ?_, ?_⟩ <;> intro h <;>
    simp [div_b, div_w, arg_pair, hbr, hwr, h]

/-- C5 witness: the spec scenario DIV_W r1, r2, r3, r4 with r4 = 0 traps
with ZeroDiv and leaves every register unchanged. -/
theorem div_spec_witness :
    div_w ⟨cpu0, U4.pair 1 2 :: U4.pair 3 4 :: [], fun _ => 0, fun _ => 0⟩ =
      Res.trap TrapMode.ZeroDiv ⟨cpu0.bump.bump, [], fun _ => 0, fun _ => 0⟩ :=
  (div_spec cpu0 (fun _ => 0) (fun _ => 0) 1 2 3 4 []).2.2.1 rfl

/-- C6.  With the zero flag set and sign equal to overflow (the state after
comparing two equal values) and a jump target of 0x0100 in the operand
stream, the JLE handler does NOT take the jump: the program counter merely
advances over the two operand bytes, from 0x10 to 18 = 0x12.  The guard in
the source is (sign XOR overflow) AND zero, so a less-or-equal jump on
equality never fires, where the claimed semantics (sign XOR overflow) OR
zero would fire. -/
theorem jle_not_taken_on_equal :
    jle c6Ctx = Res.ok () ⟨c6Ctx.cpu.bump.bump, [], c6Ctx.mem, c6Ctx.pmem⟩ ∧
    c6Ctx.cpu.bump.bump.program_counter = 18 ∧
    c6Ctx.cpu.flags.zero = true ∧
    c6Ctx.cpu.flags.sign = c6Ctx.cpu.flags.overflow :=
  ⟨rfl, rfl, rfl, rfl⟩

/-- C7.  STORE_BI with the base wide register holding 0xFFFF and the
immediate offset 1 crashes: the effective-address computation in the
source is a plain non-wrapping u16 addition, an arithmetic-overflow
program error, instead of wrapping to address 0x0000. -/
theorem store_bi_overflow_crashes : store_bi c7Ctx = Res.crash := rfl

/-- C8.  The SHL_B handler with a register-supplied shift amount of 8 (at
least the bit width) crashes the host: the source shifts with the plain
Rust shift operator, an arithmetic-overflow program error, so the dispatch
is not total over all machine states. -/
theorem shl_b_shift_amount_crashes : shl_b (mkBCtx 1 8) = Res.crash := rfl

/-- C10.  The jmp arm of the instruction parser: a wide-register operand
equal to r0 is rejected with an error; any other wide register assembles
to LDI_W with operand tuple (reg, R1, 0); an address operand assembles to
LDI_W with operand tuple (R0, R1, imm). -/
theorem parse_jmp_spec (sym : String → Nat) (wr : WideRegister) (hwr : wr ≠ R0) (n : Int) :
    parse_ins_jmp sym [SourceOperand.WideReg R0] =
      Except.error "r0 is not a valid jmp destination" ∧
    parse_ins_jmp sym [SourceOperand.WideReg wr] =
      Except.ok (LDI_W, DataOperand.TwoWideImm wr R1 (Wide.Number 0)) ∧
    parse_ins_jmp sym [SourceOperand.Number n] =
      Except.ok (LDI_W, DataOperand.TwoWideImm R0 R1 (Wide.Number (Int.toNat (n % 65536)))) := by
  refine ⟨rfl, ?_, rfl⟩
  simp [parse_ins_jmp, DataOperand.parse_imm_wide, DataOperand.imm_wide,
    DataOperand.parse_wreg, DataOperand.wide, DataOperand.parse_nothing, hwr]

/-- C10 witness: jmp r0 errors, jmp r1 assembles to LDI_W (r1, R1, 0), and
jmp 300 assembles to LDI_W (R0, R1, 300). -/
theorem parse_jmp_spec_witness :
    parse_ins_jmp (fun _ => 0) [SourceOperand.WideReg R0] =
      Except.error "r0 is not a valid jmp destination" ∧
    parse_ins_jmp (fun _ => 0) [SourceOperand.WideReg R1] =
      Except.ok (LDI_W, DataOperand.TwoWideImm R1 R1 (Wide.Number 0)) ∧
    parse_ins_jmp (fun _ => 0) [SourceOperand.Number 300] =
      Except.ok (LDI_W, DataOperand.TwoWideImm R0 R1 (Wide.Number (Int.toNat (300 % 65536)))) :=
  parse_jmp_spec (fun _ => 0) R1 (by decide) 300

theorem decode_encode_aux (resolve : Nat → Nat → Nat) (dop : DataOperand)
    (hwf : wfb dop = true) :
    decodeRun (shapeOf dop) (write_data_operand resolve dop) = some (dop, []) := by
  cases dop with
  | Nothing => rfl
  | ByteRegister r =>
    simp [decodeRun, decodeShape, shapeOf, write_data_operand, mkDecodeCtx, arg_pair]
  | WideRegister r =>
    simp [decodeRun, decodeShape, shapeOf, write_data_operand, mkDecodeCtx, arg_pair]
  | ImmediateByte b =>
    simp [decodeRun, decodeShape, shapeOf, write_data_operand, mkDecodeCtx, arg_imm_byte]
  | ImmediateWide w =>
    cases w with
    | Number v =>
      simp [wfb] at hwf
      simp [decodeRun, decodeShape, shapeOf, write_data_operand, mkDecodeCtx, arg_imm_wide,
        toLeBytes16, parse_wide]
      omega
    | Label l => simp [wfb] at hwf
  | ByteImm r b =>
    simp [decodeRun, decodeShape, shapeOf, write_data_operand, mkDecodeCtx, arg_pair,
      arg_imm_byte]
  | WideImm r w =>
    cases w with
    | Number v =>
      simp [wfb] at hwf
      simp [decodeRun, decodeShape, shapeOf, write_data_operand, mkDecodeCtx, arg_pair,
        arg_imm_wide, toLeBytes16, parse_wide]
      omega
    | Label l => simp [wfb] at hwf
  | WideImmByte r1 w r2 =>
    cases w with
    | Number v =>
      simp [wfb] at hwf
      simp [decodeRun, decodeShape, shapeOf, write_data_operand, mkDecodeCtx, arg_pair,
        arg_imm_wide, toLeBytes16, parse_wide]
      omega
    | Label l => simp [wfb] at hwf
  | WideImmWide r1 w r2 =>
    cases w with
    | Number v =>
      simp [wfb] at hwf
      simp [decodeRun, decodeShape, shapeOf, write_data_operand, mkDecodeCtx, arg_pair,
        arg_imm_wide, toLeBytes16, parse_wide]
      omega
    | Label l => simp [wfb] at hwf
  | TwoWideOneByte r1 r2 r3 =>
    simp [decodeRun, decodeShape, shapeOf, write_data_operand, mkDecodeCtx, arg_pair]
  | ByteWideImm r1 r2 w =>
    cases w with
    | Number v =>
      simp [wfb] at hwf
      simp [decodeRun, decodeShape, shapeOf, write_data_operand, mkDecodeCtx, arg_pair,
        arg_imm_wide, toLeBytes16, parse_wide]
      omega
    | Label l => simp [wfb] at hwf
  | TwoWideImm r1 r2 w =>
    cases w with
    | Number v =>
      simp [wfb] at hwf
      simp [decodeRun, decodeShape, shapeOf, write_data_operand, mkDecodeCtx, arg_pair,
        arg_imm_wide, toLeBytes16, parse_wide]
      omega
    | Label l => simp [wfb] at hwf
  | ByteTwoWide r1 r2 r3 =>
    simp [decodeRun, decodeShape, shapeOf, write_data_operand, mkDecodeCtx, arg_pair]
  | ThreeByte r1 r2 r3 =>
    simp [decodeRun, decodeShape, shapeOf, write_data_operand, mkDecodeCtx, arg_pair]
  | ThreeWide r1 r2 r3 =>
    simp [decodeRun, decodeShape, shapeOf, write_data_operand, mkDecodeCtx, arg_pair]
  | FourByte r1 r2 r3 r4 =>
    simp [decodeRun, decodeShape, shapeOf, write_data_operand, mkDecodeCtx, arg_pair]
  | FourWide r1 r2 r3 r4 =>
    simp [decodeRun, decodeShape, shapeOf, write_data_operand, mkDecodeCtx, arg_pair]

theorem encode_decode_aux (resolve : Nat → Nat → Nat) (S : Shape) (bytes : List Nat)
    (hb : ∀ x ∈ bytes, x < 256) (dop2 : DataOperand) (rest : List Nat)
    (h : decodeRun S bytes = some (dop2, rest)) :
    wfb dop2 = true ∧ write_data_operand resolve dop2 ++ rest = bytes := by
  cases S with
  | nothing =>
    simp [decodeRun, decodeShape, mkDecodeCtx] at h
    obtain ⟨h1, h2⟩ := h
    subst h1
    subst h2
    simp [wfb, write_data_operand]
  | byteReg =>
    cases bytes with
    | nil => simp [decodeRun, decodeShape, mkDecodeCtx, arg_pair] at h
    | cons x tail =>
      have hx : x < 256 := hb x (by simp)
      by_cases hz : x % 16 = 0
      · simp [decodeRun, decodeShape, mkDecodeCtx, arg_pair, U4.paired, hz] at h
        obtain ⟨h1, h2⟩ := h
        subst h1
        subst h2
        refine ⟨rfl, ?_⟩
        simp [write_data_operand, U4.pair]
        omega
      · simp [decodeRun, decodeShape, mkDecodeCtx, arg_pair, U4.paired, hz] at h
  | wideReg =>
    cases bytes with
    | nil => simp [decodeRun, decodeShape, mkDecodeCtx, arg_pair] at h
    | cons x tail =>
      have hx : x < 256 := hb x (by simp)
      by_cases hz : x % 16 = 0
      · simp [decodeRun, decodeShape, mkDecodeCtx, arg_pair, U4.paired, hz] at h
        obtain ⟨h1, h2⟩ := h
        subst h1
        subst h2
        refine ⟨rfl, ?_⟩
        simp [write_data_operand, U4.pair]
        omega
      · simp [decodeRun, decodeShape, mkDecodeCtx, arg_pair, U4.paired, hz] at h
  | immByte =>
    cases bytes with
    | nil => simp [decodeRun, decodeShape, mkDecodeCtx, arg_imm_byte] at h
    | cons x tail =>
      have hx : x < 256 := hb x (by simp)
      simp [decodeRun, decodeShape, mkDecodeCtx, arg_imm_byte] at h
      obtain ⟨h1, h2⟩ := h
      subst h1
      subst h2
      refine ⟨?_, ?_⟩
      · simp [wfb]
        omega
      · simp [write_data_operand]
  | immWide =>
    match bytes with
    | [] => simp [decodeRun, decodeShape, mkDecodeCtx, arg_imm_wide] at h
    | [x] => simp [decodeRun, decodeShape, mkDecodeCtx, arg_imm_wide] at h
    | x :: y :: tail =>
      have hx : x < 256 := hb x (by simp)
      have hy : y < 256 := hb y (by simp)
      simp [decodeRun, decodeShape, mkDecodeCtx, arg_imm_wide] at h
      obtain ⟨h1, h2⟩ := h
      subst h1
      subst h2
      refine ⟨?_, ?_⟩
      · simp [wfb]
        omega
      · simp [write_data_operand, toLeBytes16, parse_wide]
        omega
  | byteImm =>
    match bytes with
    | [] => simp [decodeRun, decodeShape, mkDecodeCtx, arg_pair, arg_imm_byte] at h
    | [x] =>
      by_cases hz : x % 16 = 0 <;>
        simp [decodeRun, decodeShape, mkDecodeCtx, arg_pair, arg_imm_byte, U4.paired, hz] at h
    | x :: y :: tail =>
      have hx : x < 256 := hb x (by simp)
      have hy : y < 256 := hb y (by simp)
      by_cases hz : x % 16 = 0
      · simp [decodeRun, decodeShape, mkDecodeCtx, arg_pair, arg_imm_byte, U4.paired, hz] at h
        obtain ⟨h1, h2⟩ := h
        subst h1
        subst h2
        refine ⟨?_, ?_⟩
        · simp [wfb]
          omega
        · simp [write_data_operand, U4.pair]
          omega
      · simp [decodeRun, decodeShape, mkDecodeCtx, arg_pair, arg_imm_byte, U4.paired, hz] at h
  | wideImm =>
    match bytes with
    | [] => simp [decodeRun, decodeShape, mkDecodeCtx, arg_pair, arg_imm_wide] at h
    | [x] =>
      by_cases hz : x % 16 = 0 <;>
        simp [decodeRun, decodeShape, mkDecodeCtx, arg_pair, arg_imm_wide, U4.paired, hz] at h
    | [x, y] =>
      by_cases hz : x % 16 = 0 <;>
        simp [decodeRun, decodeShape, mkDecodeCtx, arg_pair, arg_imm_wide, U4.paired, hz] at h
    | x :: y :: w :: tail =>
      have hx : x < 256 := hb x (by simp)
      have hy : y < 256 := hb y (by simp)
      have hw : w < 256 := hb w (by simp)
      by_cases hz : x % 16 = 0
      · simp [decodeRun, decodeShape, mkDecodeCtx, arg_pair, arg_imm_wide, U4.paired, hz] at h
        obtain ⟨h1, h2⟩ := h
        subst h1
        subst h2
        refine ⟨?_, ?_⟩
        · simp [wfb]
          omega
        · simp [write_data_operand, toLeBytes16, parse_wide, U4.pair]
          omega
      · simp [decodeRun, decodeShape, mkDecodeCtx, arg_pair, arg_imm_wide, U4.paired, hz] at h
  | wideImmByte =>
    match bytes with
    | [] => simp [decodeRun, decodeShape, mkDecodeCtx, arg_pair, arg_imm_wide] at h
    | [x] => simp [decodeRun, decodeShape, mkDecodeCtx, arg_pair, arg_imm_wide, U4.paired] at h
    | [x, y] => simp [decodeRun, decodeShape, mkDecodeCtx, arg_pair, arg_imm_wide, U4.paired] at h
    | x :: y :: w :: tail =>
      have hx : x < 256 := hb x (by simp)
      have hy : y < 256 := hb y (by simp)
      have hw : w < 256 := hb w (by simp)
      simp [decodeRun, decodeShape, mkDecodeCtx, arg_pair, arg_imm_wide, U4.paired] at h
      obtain ⟨h1, h2⟩ := h
      subst h1
      subst h2
      refine ⟨?_, ?_⟩
      · simp [wfb]
        omega
      · simp [write_data_operand, toLeBytes16, parse_wide, U4.pair]
        omega
  | wideImmWide =>
    match bytes with
    | [] => simp [decodeRun, decodeShape, mkDecodeCtx, arg_pair, arg_imm_wide] at h
    | [x] => simp [decodeRun, decodeShape, mkDecodeCtx, arg_pair, arg_imm_wide, U4.paired] at h
    | [x, y] => simp [decodeRun, decodeShape, mkDecodeCtx, arg_pair, arg_imm_wide, U4.paired] at h
    | x :: y :: w :: tail =>
      have hx : x < 256 := hb x (by simp)
      have hy : y < 256 := hb y (by simp)
      have hw : w < 256 := hb w (by simp)
      simp [decodeRun, decodeShape, mkDecodeCtx, arg_pair, arg_imm_wide, U4.paired] at h
      obtain ⟨h1, h2⟩ := h
      subst h1
      subst h2
      refine ⟨?_, ?_⟩
      · simp [wfb]
        omega
      · simp [write_data_operand, toLeBytes16, parse_wide, U4.pair]
        omega
  | twoWideOneByte =>
    match bytes with
    | [] => simp [decodeRun, decodeShape, mkDecodeCtx, arg_pair] at h
    | [x] => simp [decodeRun, decodeShape, mkDecodeCtx, arg_pair, U4.paired] at h
    | x :: y :: tail =>
      have hx : x < 256 := hb x (by simp)
      have hy : y < 256 := hb y (by simp)
      by_cases hz : y % 16 = 0
      · simp [decodeRun, decodeShape, mkDecodeCtx, arg_pair, U4.paired, hz] at h
        obtain ⟨h1, h2⟩ := h
        subst h1
        subst h2
        refine ⟨rfl, ?_⟩
        simp [write_data_operand, U4.pair]
        omega
      · simp [decodeRun, decodeShape, mkDecodeCtx, arg_pair, U4.paired, hz] at h
  | byteWideImm =>
    match bytes with
    | [] => simp [decodeRun, decodeShape, mkDecodeCtx, arg_pair, arg_imm_wide] at h
    | [x] => simp [decodeRun, decodeShape, mkDecodeCtx, arg_pair, arg_imm_wide, U4.paired] at h
    | [x, y] => simp [decodeRun, decodeShape, mkDecodeCtx, arg_pair, arg_imm_wide, U4.paired] at h
    | x :: y :: w :: tail =>
      have hx : x < 256 := hb x (by simp)
      have hy : y < 256 := hb y (by simp)
      have hw : w < 256 := hb w (by simp)
      simp [decodeRun, decodeShape, mkDecodeCtx, arg_pair, arg_imm_wide, U4.paired] at h
      obtain ⟨h1, h2⟩ := h
      subst h1
      subst h2
      refine ⟨?_, ?_⟩
      · simp [wfb]
        omega
      · simp [write_data_operand, toLeBytes16, parse_wide, U4.pair]
        omega
  | twoWideImm =>
    match bytes with
    | [] => simp [decodeRun, decodeShape, mkDecodeCtx, arg_pair, arg_imm_wide] at h
    | [x] => simp [decodeRun, decodeShape, mkDecodeCtx, arg_pair, arg_imm_wide, U4.paired] at h
    | [x, y] => simp [decodeRun, decodeShape, mkDecodeCtx, arg_pair, arg_imm_wide, U4.paired] at h
    | x :: y :: w :: tail =>
      have hx : x < 256 := hb x (by simp)
      have hy : y < 256 := hb y (by simp)
      have hw : w < 256 := hb w (by simp)
      simp [decodeRun, decodeShape, mkDecodeCtx, arg_pair, arg_imm_wide, U4.paired] at h
      obtain ⟨h1, h2⟩ := h
      subst h1
      subst h2
      refine ⟨?_, ?_⟩
      · simp [wfb]
        omega
      · simp [write_data_operand, toLeBytes16, parse_wide, U4.pair]
        omega
  | byteTwoWide =>
    match bytes with
    | [] => simp [decodeRun, decodeShape, mkDecodeCtx, arg_pair] at h
    | [x] => simp [decodeRun, decodeShape, mkDecodeCtx, arg_pair, U4.paired] at h
    | x :: y :: tail =>
      have hx : x < 256 := hb x (by simp)
      have hy : y < 256 := hb y (by simp)
      by_cases hz : y % 16 = 0
      · simp [decodeRun, decodeShape, mkDecodeCtx, arg_pair, U4.paired, hz] at h
        obtain ⟨h1, h2⟩ := h
        subst h1
        subst h2
        refine ⟨rfl, ?_⟩
        simp [write_data_operand, U4.pair]
        omega
      · simp [decodeRun, decodeShape, mkDecodeCtx, arg_pair, U4.paired, hz] at h
  | threeByte =>
    match bytes with
    | [] => simp [decodeRun, decodeShape, mkDecodeCtx, arg_pair] at h
    | [x] => simp [decodeRun, decodeShape, mkDecodeCtx, arg_pair, U4.paired] at h
    | x :: y :: tail =>
      have hx : x < 256 := hb x (by simp)
      have hy : y < 256 := hb y (by simp)
      by_cases hz : y % 16 = 0
      · simp [decodeRun, decodeShape, mkDecodeCtx, arg_pair, U4.paired, hz] at h
        obtain ⟨h1, h2⟩ := h
        subst h1
        subst h2
        refine ⟨rfl, ?_⟩
        simp [write_data_operand, U4.pair]
        omega
      · simp [decodeRun, decodeShape, mkDecodeCtx, arg_pair, U4.paired, hz] at h
  | threeWide =>
    match bytes with
    | [] => simp [decodeRun, decodeShape, mkDecodeCtx, arg_pair] at h
    | [x] => simp [decodeRun, decodeShape, mkDecodeCtx, arg_pair, U4.paired] at h
    | x :: y :: tail =>
      have hx : x < 256 := hb x (by simp)
      have hy : y < 256 := hb y (by simp)
      by_cases hz : y % 16 = 0
      · simp [decodeRun, decodeShape, mkDecodeCtx, arg_pair, U4.paired, hz] at h
        obtain ⟨h1, h2⟩ := h
        subst h1
        subst h2
        refine ⟨rfl, ?_⟩
        simp [write_data_operand, U4.pair]
        omega
      · simp [decodeRun, decodeShape, mkDecodeCtx, arg_pair, U4.paired, hz] at h
  | fourByte =>
    match bytes with
    | [] => simp [decodeRun, decodeShape, mkDecodeCtx, arg_pair] at h
    | [x] => simp [decodeRun, decodeShape, mkDecodeCtx, arg_pair, U4.paired] at h
    | x :: y :: tail =>
      have hx : x < 256 := hb x (by simp)
      have hy : y < 256 := hb y (by simp)
      simp [decodeRun, decodeShape, mkDecodeCtx, arg_pair, U4.paired] at h
      obtain ⟨h1, h2⟩ := h
      subst h1
      subst h2
      refine ⟨rfl, ?_⟩
      simp [write_data_operand, U4.pair]
      omega
  | fourWide =>
    match bytes with
    | [] => simp [decodeRun, decodeShape, mkDecodeCtx, arg_pair] at h
    | [x] => simp [decodeRun, decodeShape, mkDecodeCtx, arg_pair, U4.paired] at h
    | x :: y :: tail =>
      have hx : x < 256 := hb x (by simp)
      have hy : y < 256 := hb y (by simp)
      simp [decodeRun, decodeShape, mkDecodeCtx, arg_pair, U4.paired] at h
      obtain ⟨h1, h2⟩ := h
      subst h1
      subst h2
      refine ⟨rfl, ?_⟩
      simp [write_data_operand, U4.pair]
      omega

/-- C1.  Encoder and decoder round-trip: decoding the bytes produced by
write_data_operand for any legal operand tuple under its shape yields back
exactly that tuple with nothing left over; and whenever a shape decoder
accepts a prefix of a byte sequence, the decoded tuple is legal and
re-encoding it reproduces the consumed bytes exactly. -/
theorem operand_roundtrip (dop : DataOperand) (resolve : Nat → Nat → Nat)
    (hwf : wfb dop = true) (S : Shape) (bytes : List Nat)
    (hb : ∀ x ∈ bytes, x < 256) :
    decodeRun (shapeOf dop) (write_data_operand resolve dop) = some (dop, []) ∧
    (∀ dop2 rest, decodeRun S bytes = some (dop2, rest) →
      wfb dop2 = true ∧ write_data_operand resolve dop2 ++ rest = bytes) :=
  ⟨decode_encode_aux resolve dop hwf,
   fun dop2 rest h => encode_decode_aux resolve S bytes hb dop2 rest h⟩

/-- C1 witness: the spec scenario operand tuple of add r1, r2, r3 (three
wide registers) encodes to the bytes 0x12 0x30 and decodes back to itself,
and every byte sequence accepted by the three-wide decoder re-encodes to
itself. -/
theorem operand_roundtrip_witness :
    decodeRun (shapeOf (DataOperand.ThreeWide ⟨1⟩ ⟨2⟩ ⟨3⟩))
        (write_data_operand (fun _ _ => 0) (DataOperand.ThreeWide ⟨1⟩ ⟨2⟩ ⟨3⟩)) =
      some (DataOperand.ThreeWide ⟨1⟩ ⟨2⟩ ⟨3⟩, []) ∧
    (∀ dop2 rest, decodeRun Shape.threeWide [18, 48] = some (dop2, rest) →
      wfb dop2 = true ∧ write_data_operand (fun _ _ => 0) dop2 ++ rest = [18, 48]) :=
  operand_roundtrip (DataOperand.ThreeWide ⟨1⟩ ⟨2⟩ ⟨3⟩) (fun _ _ => 0) rfl
    Shape.threeWide [18, 48] (by decide)
